import Mathlib

/- Verification of the qTMclust structural-clustering engine (qTMclust+.cpp).

   The development shallowly embeds the components of the program that the
   checked properties concern: the score combiner, the length-bound pruner,
   the two-tier TM-align confirmation protocol of a worker, the lower-bound
   helper, the TMcut argument check, the s-to-a_opt coupling, the
   length-descending sort of chains, the clustering driver state machine and
   the final cluster printer.

   Conventions.  C++ doubles are modelled as exact rationals where the code
   only does field arithmetic and comparisons, and as real numbers where a
   square root is involved (score combination).  The external alignment
   primitives (TMalign_main, HwRMSD_main) are out of scope per the spec and
   enter as oracle parameters.  Chain ids are naturals; output text is a list
   of characters. -/

namespace QTMclust

/- ===== Score combiner (qTMclust+.cpp lines 270-276 and 315-320) =====
   double TM = TM3;
   if      (s_opt == 1) TM = TM2;
   else if (s_opt == 2) TM = TM1;
   else if (s_opt == 3) TM = (TM1 + TM2) / 2;
   else if (s_opt == 4) TM = 2 / (1 / TM1 + 1 / TM2);
   else if (s_opt == 5) TM = sqrt(TM1 * TM2);
   else if (s_opt == 6) TM = sqrt((TM1 * TM1 + TM2 * TM2) / 2);  -/
noncomputable def combineTM (s : ℤ) (TM1 TM2 TM3 : ℝ) : ℝ :=
  if s = 1 then TM2
  else if s = 2 then TM1
  else if s = 3 then (TM1 + TM2) / 2
  else if s = 4 then 2 / (1 / TM1 + 1 / TM2)
  else if s = 5 then Real.sqrt (TM1 * TM2)
  else if s = 6 then Real.sqrt ((TM1 * TM1 + TM2 * TM2) / 2)
  else TM3

/- ===== filter_lower_bound (lines 123-142) =====
   lb_HwRMSD=0.5*TMcut; lb_TMfast=0.9*TMcut;
   if (s_opt<=1) { if (mol_type>0) {lb_HwRMSD=0.02*TMcut; lb_TMfast=0.60*TMcut;}
                   else            {lb_HwRMSD=0.25*TMcut; lb_TMfast=0.80*TMcut;} }
   Returns the pair (lb_HwRMSD, lb_TMfast). -/
def filter_lower_bound (TMcut : ℚ) (s_opt : ℤ) (mol_type : ℤ) : ℚ × ℚ :=
  if s_opt ≤ 1 then
    if mol_type > 0 then (0.02 * TMcut, 0.60 * TMcut)
    else (0.25 * TMcut, 0.80 * TMcut)
  else (0.5 * TMcut, 0.9 * TMcut)

/- The lb_TMfast actually handed to the worker threads: the confirmation
   phase calls filter_lower_bound(lb_HwRMSD, lb_TMfast, TMcut, s_opt, 0) on
   local shadowing variables (line 878) with mol_type fixed to 0, and passes
   that lb_TMfast in ThreadArgs (lines 881-887). -/
def confirmer_lb_TMfast (TMcut : ℚ) (s_opt : ℤ) : ℚ :=
  (filter_lower_bound TMcut s_opt 0).2

/- ===== s-to-a_opt coupling (lines 561-563) =====
   a_opt starts at 0 (line 359);
   if      (s_opt==2 || s_opt==4 || s_opt==5) a_opt=-2;
   else if (s_opt==1 || s_opt==5) a_opt=-1;
   else if (s_opt==3) a_opt= 1;  -/
def a_opt_after (s_opt : ℤ) : ℤ :=
  if s_opt = 2 ∨ s_opt = 4 ∨ s_opt = 5 then -2
  else if s_opt = 1 ∨ s_opt = 5 then -1
  else if s_opt = 3 then 1
  else 0

/- ===== TMcut argument validation (lines 450-455) =====
   TMcut=atof(argv[i + 1]);
   if (TMcut>1 or TMcut<0.45)
       PrintErrorAndQuit("TMcut must be in the range of [0.45,1)");
   Holds exactly when the program prints the diagnostic and exits. -/
def tmcut_rejected (v : ℚ) : Prop := v > 1 ∨ v < 0.45

instance (v : ℚ) : Decidable (tmcut_rejected v) :=
  inferInstanceAs (Decidable (v > 1 ∨ v < 0.45))

/- ===== Length-bound pruner (worker lines 220-225, identical driver copy
   at lines 723-728) =====
   if (mol_vec[chain_i] * mol_vec[chain_j] < 0)                  continue;
   else if (s_opt == 2 && xlen < TMcut * ylen)                   continue;
   else if (s_opt == 3 && xlen < (2 * TMcut - 1) * ylen)         continue;
   else if (s_opt == 4 && xlen * (2 / TMcut - 1) < ylen)         continue;
   else if (s_opt == 5 && xlen < TMcut * TMcut * ylen)           continue;
   else if (s_opt == 6 && xlen * xlen < (2 * TMcut * TMcut - 1) * ylen * ylen) continue;
   The pair is rejected exactly when one of the continue branches fires. -/
def prune_reject (x y : ℕ) (molx moly : ℤ) (c : ℚ) (s : ℤ) : Bool :=
  if molx * moly < 0 then true
  else if s = 2 ∧ (x : ℚ) < c * y then true
  else if s = 3 ∧ (x : ℚ) < (2 * c - 1) * y then true
  else if s = 4 ∧ (x : ℚ) * (2 / c - 1) < (y : ℚ) then true
  else if s = 5 ∧ (x : ℚ) < c * c * y then true
  else if s = 6 ∧ (x : ℚ) * x < (2 * c * c - 1) * y * y then true
  else false

/- ===== Fast-mode decision inside alignment_worker (lines 236-238) =====
   const double fast_ub = 1000.;
   double Lave = sqrt((double)args.xlen * ylen);
   bool current_fast_opt = (args.fast_opt == true || Lave >= fast_ub);
   Over the nonnegative integers, sqrt(x*y) >= 1000 holds exactly when
   x*y >= 1000*1000; the bridge to the square root formulation is proved in
   use_fast_eq_sqrt_form below. -/
def use_fast (fast_flag : Bool) (xlen ylen : ℕ) : Bool :=
  fast_flag || decide (1000 * 1000 ≤ xlen * ylen)

/- ===== Per-candidate two-tier protocol of alignment_worker (lines 236-335)
   =====
   The external TMalign_main primitive is abstracted as an oracle mapping the
   fast flag of the call to the returned scores (TM1, TM2, TM3); all other
   arguments of the call are fixed for a given pair.  The function returns
   the worker's verdict for the candidate, where some k means HIT sealing
   cluster index k = clust_repr_map.at(chain_j) (lines 283 and 327) and
   none means MISS, together with the list of fast flags of the TMalign_main
   invocations performed, in order. -/
noncomputable def evaluate_candidate (c ub lb : ℝ) (s : ℤ) (fast_flag : Bool)
    (xlen ylen : ℕ) (oracle : Bool → ℝ × ℝ × ℝ) (reprMap : ℕ → ℕ)
    (chain_j : ℕ) : Option ℕ × List Bool :=
  let uf := use_fast fast_flag xlen ylen
  let r1 := oracle uf
  let TM := combineTM s r1.1 r1.2.1 r1.2.2
  if ub ≤ TM ∨ (c ≤ TM ∧ uf = true) then (some (reprMap chain_j), [uf])
  else if TM < lb then (none, [uf])
  else
    let r2 := oracle false
    let TM2 := combineTM s r2.1 r2.2.1 r2.2.2
    if c ≤ TM2 then (some (reprMap chain_j), [uf, false])
    else (none, [uf, false])

/- ===== Round-robin partition of candidates over the worker pool (lines
   869-874) =====
   for (size_t k = 0; k < index_vec.size(); ++k)
       chunks[k % num_threads].push_back(index_vec[k]);  -/
def roundRobinChunks (W : ℕ) (l : List ℕ) : List (List ℕ) :=
  (List.range W).map (fun t => ((l.enum.filter (fun p => p.1 % W = t)).map
    (fun p => p.2)))

/- Threads are created only for nonempty chunks (lines 890-896):
   if (!chunks[t].empty()) { ...; threads.emplace_back(...); }  -/
def numThreadsSpawned (W : ℕ) (l : List ℕ) : ℕ :=
  ((roundRobinChunks W l).filter (fun ch => !ch.isEmpty)).length

/- ===== Length-descending chain order (lines 626-627 and 649-650) =====
   chainLen_list collects one (length, id) pair per chain, in parse order:
   chainLen_list.push_back(make_pair(PDB_lines[j].size(), j+xchainnum));
   It is then sorted with
   stable_sort(chainLen_list.begin(), chainLen_list.end(),
               greater<pair<int,int> >());
   greater<pair> compares lexicographically: a is placed before b exactly
   when a.first > b.first, or a.first == b.first and a.second > b.second;
   this strict order never ties on distinct entries (ids differ), so the
   stable sort yields the unique descending lexicographic arrangement.  gtPair
   is the C++ comparator; stableSortRel a b says a may be placed before b. -/
def gtPair (a b : ℕ × ℕ) : Prop := b.1 < a.1 ∨ (a.1 = b.1 ∧ b.2 < a.2)

instance (a b : ℕ × ℕ) : Decidable (gtPair a b) :=
  inferInstanceAs (Decidable (b.1 < a.1 ∨ (a.1 = b.1 ∧ b.2 < a.2)))

def stableSortRel (a b : ℕ × ℕ) : Prop := ¬ gtPair b a

instance : DecidableRel stableSortRel :=
  fun a b => inferInstanceAs (Decidable (¬ gtPair b a))

instance : IsTotal (ℕ × ℕ) stableSortRel :=
  ⟨by intro a b; unfold stableSortRel gtPair; omega⟩

instance : IsTrans (ℕ × ℕ) stableSortRel :=
  ⟨by intro a b c; unfold stableSortRel gtPair; omega⟩

/- The (length, id) pairs in parse order, ids being positions in the parse
   sequence. -/
def chainLen_pairs (lengths : List ℕ) : List (ℕ × ℕ) :=
  lengths.enum.map (fun p => (p.2, p.1))

/- The order in which the driver processes chains: the stable sort of
   chainLen_pairs under the greater<pair> comparator.  Modelled by a stable
   insertion sort; as the comparator is a total order on the distinct
   entries, any stable sort produces this unique arrangement. -/
def processing_order (lengths : List ℕ) : List (ℕ × ℕ) :=
  List.insertionSort stableSortRel (chainLen_pairs lengths)

/- Modelled from the spec words of C3 only, for comparison with
   processing_order: length descending, ties broken by original chain id
   ascending. -/
def claimRel (a b : ℕ × ℕ) : Prop := b.1 < a.1 ∨ (a.1 = b.1 ∧ a.2 ≤ b.2)

instance : DecidableRel claimRel :=
  fun a b => inferInstanceAs (Decidable (b.1 < a.1 ∨ (a.1 = b.1 ∧ a.2 ≤ b.2)))

def claimed_order (lengths : List ℕ) : List (ℕ × ℕ) :=
  List.insertionSort claimRel (chainLen_pairs lengths)

/- ===== Clustering driver state (lines 677-685) =====
   vector<size_t> clust_mem_vec(Nstruct,-1);  -- membership, -1 = unassigned
   vector<size_t> clust_repr_vec;             -- representative list
   map<size_t,size_t> clust_repr_map;         -- representative reverse index
   Unassigned entries are modelled as none. -/
structure ClustState where
  mem : ℕ → Option ℕ
  reprs : List ℕ
  reprMap : ℕ → Option ℕ

/- Candidate list built by the driver (lines 719-730): representatives are
   visited from the most recently added one back to the first, and the
   pruner conditions (identical to the worker copy) drop a candidate. -/
def build_candidates (reprs : List ℕ) (lenOf : ℕ → ℕ) (molOf : ℕ → ℤ)
    (chain_i : ℕ) (c : ℚ) (s : ℤ) : List ℕ :=
  reprs.reverse.filter (fun chain_j =>
    ! prune_reject (lenOf chain_i) (lenOf chain_j)
        (molOf chain_i) (molOf chain_j) c s)

/- Outcome of the confirmation fan-out (lines 863-904): found_clust_atomic
   is initialised false and worker threads are spawned only when the
   candidate list is nonempty, so with an empty list the flag stays false;
   otherwise the outcome is whatever the workers racing over the list
   decide, which the model takes as an oracle parameter (the alignment
   primitive is external). -/
def worker_found (cands : List ℕ) (outcome : Option ℕ) : Option ℕ :=
  if cands.isEmpty then none else outcome

/- State update after the fan-out (lines 910-923):
   if (found_clust_atomic.load())
       clust_mem_vec[chain_i] = assigned_cluster_idx;
   else {
       clust_mem_vec[chain_i] = clust_repr_vec.size();
       clust_repr_map[chain_i] = clust_repr_vec.size();
       clust_repr_vec.push_back(chain_i); }  -/
def confirm_and_update (cands : List ℕ) (outcome : Option ℕ)
    (st : ClustState) (chain_i : ℕ) : ClustState :=
  match worker_found cands outcome with
  | some k => { st with mem := Function.update st.mem chain_i (some k) }
  | none =>
      { mem := Function.update st.mem chain_i (some st.reprs.length),
        reprMap := Function.update st.reprMap chain_i (some st.reprs.length),
        reprs := st.reprs ++ [chain_i] }

/- One iteration of the driver loop (lines 696-925) for the chain with id
   chain_i.  The L <= 5 branch is lines 700-705:
   if (xlen<=5) {
       clust_mem_vec[chain_i]=clust_repr_vec.size();
       clust_repr_vec.push_back(clust_repr_vec.size());
       continue; }
   Note the code pushes clust_repr_vec.size(), not chain_i, and does not
   touch clust_repr_map.  Otherwise the chain goes through pruning and the
   confirmation fan-out.  The HwRMSD ranking stage (lines 739-858) reorders
   and truncates the candidate list before the fan-out; its numeric
   behaviour depends on the external HwRMSD primitive, so the model lets the
   oracle see the pruned list directly (none of the checked claims depends
   on the ranking stage). -/
def driver_step (oracle : ℕ → List ℕ → Option ℕ) (lenOf : ℕ → ℕ)
    (molOf : ℕ → ℤ) (c : ℚ) (s : ℤ) (st : ClustState) (chain_i : ℕ) :
    ClustState :=
  if lenOf chain_i ≤ 5 then
    { mem := Function.update st.mem chain_i (some st.reprs.length),
      reprs := st.reprs ++ [st.reprs.length],
      reprMap := st.reprMap }
  else
    let cands := build_candidates st.reprs lenOf molOf chain_i c s
    confirm_and_update cands (oracle chain_i cands) st chain_i

/- The full driver (lines 677-925): the first chain of the length-sorted
   order seeds cluster 0 (lines 682-685), the remaining chains are processed
   in order. -/
def run_driver (oracle : ℕ → List ℕ → Option ℕ) (lenOf : ℕ → ℕ)
    (molOf : ℕ → ℤ) (c : ℚ) (s : ℤ) (N : ℕ) : ClustState :=
  match processing_order ((List.range N).map lenOf) with
  | [] => { mem := fun _ => none, reprs := [], reprMap := fun _ => none }
  | p :: rest =>
      rest.foldl (fun st q => driver_step oracle lenOf molOf c s st q.2)
        { mem := Function.update (fun _ => none) p.2 (some 0),
          reprs := [p.2],
          reprMap := Function.update (fun _ => none) p.2 (some 0) }

/- ===== Cluster printer (lines 934-945) =====
   for (j=0;j<clust_repr_vec.size();j++) {
       chain_j=clust_repr_vec[j];
       txt<<chainID_list[chain_j];
       for (chain_i=0;chain_i<clust_mem_vec.size();chain_i++)
           if (chain_i!=chain_j && clust_mem_vec[chain_i]==j)
               txt<<'\t'<<chainID_list[chain_i];
       txt<<'\n'; }
   Text is modelled as a list of characters; label is chainID_list as a
   function of the chain id, mem is clust_mem_vec, N its size. -/
def emit_members (label : ℕ → List Char) (mem : ℕ → ℕ) (N j r : ℕ) :
    List Char :=
  (List.range N).foldl
    (fun acc i => if i ≠ r ∧ mem i = j then acc ++ ('\t' :: label i) else acc)
    []

def print_clusters_aux (label : ℕ → List Char) (mem : ℕ → ℕ) (N : ℕ) :
    ℕ → List ℕ → List Char
  | _, [] => []
  | j, r :: rest =>
      (label r ++ emit_members label mem N j r ++ ['\n'])
        ++ print_clusters_aux label mem N (j + 1) rest

def print_clusters (label : ℕ → List Char) (mem : ℕ → ℕ) (N : ℕ)
    (reprs : List ℕ) : List Char :=
  print_clusters_aux label mem N 0 reprs

/- Modelled from the spec words of C10 only, for comparison with
   print_clusters: one line per cluster, the representative label first,
   then the labels of the non-representative members in ascending chain id,
   each preceded by a tab, the line closed by a newline. -/
def cluster_line_spec (label : ℕ → List Char) (mem : ℕ → ℕ) (N j r : ℕ) :
    List Char :=
  label r
    ++ (((List.range N).filter (fun i => decide (mem i = j ∧ i ≠ r))).map
        (fun i => '\t' :: label i)).flatten
    ++ ['\n']

def print_clusters_spec (label : ℕ → List Char) (mem : ℕ → ℕ) (N : ℕ)
    (reprs : List ℕ) : List Char :=
  (reprs.enum.map (fun p => cluster_line_spec label mem N p.1 p.2)).flatten

/- Driver state after running the program on two chains, id 0 of length 3
   and id 1 of length 10 (TMcut 0.5, s=2, molecule types all protein; the
   confirmation oracle is irrelevant because the only non-seed chain takes
   the L <= 5 branch). -/
def c1_state : ClustState :=
  run_driver (fun _ _ => none) (fun i => if i = 0 then 3 else 10)
    (fun _ => -1) 0.5 2 2

/- The combined TM after the first TMalign_main call of the worker, which is
   made with the current_fast_opt flag (lines 253-276). -/
noncomputable def firstTM (s : ℤ) (fast_flag : Bool) (x y : ℕ)
    (oracle : Bool → ℝ × ℝ × ℝ) : ℝ :=
  combineTM s (oracle (use_fast fast_flag x y)).1
    (oracle (use_fast fast_flag x y)).2.1
    (oracle (use_fast fast_flag x y)).2.2

/- The combined TM after the second, refined TMalign_main call, which is made
   with fast=false (lines 298-320). -/
noncomputable def refinedTM (s : ℤ) (oracle : Bool → ℝ × ℝ × ℝ) : ℝ :=
  combineTM s (oracle false).1 (oracle false).2.1 (oracle false).2.2

/- ======================= Theorems ======================= -/

/-- C1: evaluation of the driver at the failing input (chain 0 of length 3,
chain 1 of length 10).  Chain 0 has L <= 5, so per the claim it should form a
singleton cluster 1 whose representative-list entry is its own id 0 and whose
representative reports membership 1.  The code instead appends the value
clust_repr_vec.size() = 1 (the cluster index, not the chain id): the entry
for cluster 1 is 1, which is not chain 0, and the chain recorded there (the
seed chain 1) reports membership 0, not 1. -/
theorem low_len_repr_entry_bug :
    c1_state.reprs = [1, 1] ∧
    c1_state.mem 0 = some 1 ∧
    c1_state.reprs.getD 1 99 ≠ 0 ∧
    c1_state.mem (c1_state.reprs.getD 1 99) = some 0 := by decide

/-- C3 counterexample: for two chains of equal length 7 (ids 0 and 1), the
code's stable_sort with the greater comparator on (length, id) pairs places
id 1 before id 0, while the claim (ties broken by original id ascending)
demands id 0 first. -/
theorem sort_tie_counterexample :
    processing_order [7, 7] = [(7, 1), (7, 0)] ∧
    claimed_order [7, 7] = [(7, 0), (7, 1)] ∧
    processing_order [7, 7] ≠ claimed_order [7, 7] := by decide

/-- C3 (amended): the processing order is a permutation of the (length, id)
pairs sorted by length descending with ties broken by original chain id
DESCENDING: the greater comparator on pairs also compares the id components,
so between consecutive entries a, b either b.1 < a.1 or the lengths are
equal and b.2 <= a.2 (ids are distinct, so ties are strictly descending). -/
theorem processing_order_sorted_desc (lengths : List ℕ) :
    (processing_order lengths).Perm (chainLen_pairs lengths) ∧
    List.Sorted (fun a b : ℕ × ℕ => b.1 < a.1 ∨ (a.1 = b.1 ∧ b.2 ≤ a.2))
      (processing_order lengths) := by
  refine ⟨List.perm_insertionSort _ _, ?_⟩
  have h := List.sorted_insertionSort stableSortRel (chainLen_pairs lengths)
  exact h.imp (fun hab => by unfold stableSortRel gtPair at hab; omega)

/-- C4 counterexample: for s = 5 the flag a_opt is not set to -1: the
assignments are an if/else-if chain and s = 5 already matches the first
condition (s==2 || s==4 || s==5), so the second branch is unreachable. -/
theorem a_opt_s5_claim_false : ¬ (a_opt_after 5 = -1) := by decide

/-- C4 (amended): for s = 5 the internal normalization flag a_opt passed to
the alignment primitives is -2 (normalise by longer length): the first
matching branch of the else-if chain wins, not the last assignment. -/
theorem a_opt_s5_eq_neg_two : a_opt_after 5 = -2 := by decide

/-- C5 counterexample: with s = 1 and TMcut = 0.5 the bound lb_TMfast handed
to the confirmation workers is 0.80 * 0.5 = 0.4 for every pair, including
nucleic-acid pairs, not the 0.60 * 0.5 = 0.3 the claim states for nucleic
acids: the confirmer computes it once per query with mol_type fixed to 0,
which takes the protein branch. -/
theorem confirmer_lb_nucleic_counterexample :
    confirmer_lb_TMfast 0.5 1 = 0.80 * 0.5 ∧
    ¬ (confirmer_lb_TMfast 0.5 1 = 0.60 * 0.5) := by
  norm_num [confirmer_lb_TMfast, filter_lower_bound]

/-- C5 (amended): the bound lb_TMfast used by the Parallel Confirmer is
0.9 * c by default and, when s <= 1, 0.80 * c regardless of the molecule
types of the pair (the call site fixes mol_type to 0). -/
theorem confirmer_lb_TMfast_value (c : ℚ) (s : ℤ) :
    confirmer_lb_TMfast c s = if s ≤ 1 then 0.80 * c else 0.9 * c := by
  unfold confirmer_lb_TMfast filter_lower_bound
  split_ifs with h1 h2
  · exact absurd h2 (lt_irrefl 0)
  · rfl
  · rfl

/-- C7: evaluation of the TMcut range check at the failing input v = 1.
The code tests TMcut > 1 or TMcut < 0.45 and therefore ACCEPTS v = 1 and
proceeds to clustering, although 1 lies outside the half-open interval
[0.45, 1) that both the claim and the program's own help text and error
message prescribe. -/
theorem tmcut_one_accepted : ¬ tmcut_rejected 1 ∧ ¬ ((1 : ℚ) < 1) := by
  constructor
  · norm_num [tmcut_rejected]
  · exact lt_irrefl 1

/-- C9: when the ranked candidate list entering the confirmation phase is
empty, no worker thread is created (every round-robin chunk is empty), the
shared found flag remains unset, and the driver appends the query chain as a
new representative: its membership and reverse-index entry equal the number
of clusters existing before the step, and the representative list is
extended by the query's id. -/
theorem empty_candidates_new_repr (W : ℕ) (cands : List ℕ)
    (outcome : Option ℕ) (st : ClustState) (q : ℕ) (h : cands = []) :
    numThreadsSpawned W cands = 0 ∧
    worker_found cands outcome = none ∧
    (confirm_and_update cands outcome st q).mem q = some st.reprs.length ∧
    (confirm_and_update cands outcome st q).reprs = st.reprs ++ [q] ∧
    (confirm_and_update cands outcome st q).reprMap q
      = some st.reprs.length := by
  subst h
  refine ⟨?_, rfl, ?_, rfl, ?_⟩
  · simp [numThreadsSpawned, roundRobinChunks, List.filter_map,
      Function.comp]
  · simp [confirm_and_update, worker_found, Function.update_same]
  · simp [confirm_and_update, worker_found, Function.update_same]

/-- C9 witness: concrete instantiation with two workers, one existing
cluster with representative 5, and query chain 3. -/
theorem empty_candidates_new_repr_witness :
    (([] : List ℕ) = []) ∧
    (numThreadsSpawned 2 [] = 0 ∧
     worker_found [] (some 9) = none ∧
     (confirm_and_update [] (some 9)
        ⟨fun _ => none, [5], fun _ => none⟩ 3).mem 3 = some 1 ∧
     (confirm_and_update [] (some 9)
        ⟨fun _ => none, [5], fun _ => none⟩ 3).reprs = [5, 3] ∧
     (confirm_and_update [] (some 9)
        ⟨fun _ => none, [5], fun _ => none⟩ 3).reprMap 3 = some 1) :=
  ⟨rfl, empty_candidates_new_repr 2 [] (some 9)
    ⟨fun _ => none, [5], fun _ => none⟩ 3 rfl⟩

/-- C6: the Length-Bound Pruner rejects a pair exactly when the
molecule-type product is negative or the mode-specific length condition
holds: s=2 when x < c*y, s=3 when x < (2c-1)*y, s=4 when x*(2/c-1) < y,
s=5 when x < c^2*y, s=6 when x^2 < (2c^2-1)*y^2; s=1 never rejects on
length alone. -/
theorem pruner_characterization (x y : ℕ) (molx moly : ℤ) (c : ℚ) (s : ℤ)
    (hxy : x ≤ y) (hs : 1 ≤ s ∧ s ≤ 6) :
    prune_reject x y molx moly c s = true ↔
      (molx * moly < 0 ∨
       (s = 2 ∧ (x : ℚ) < c * y) ∨
       (s = 3 ∧ (x : ℚ) < (2 * c - 1) * y) ∨
       (s = 4 ∧ (x : ℚ) * (2 / c - 1) < (y : ℚ)) ∨
       (s = 5 ∧ (x : ℚ) < c ^ 2 * y) ∨
       (s = 6 ∧ (x : ℚ) ^ 2 < (2 * c ^ 2 - 1) * (y : ℚ) ^ 2)) := by
  have e5 : c ^ 2 * (y : ℚ) = c * c * y := by ring
  have e6 : (2 * c ^ 2 - 1) * (y : ℚ) ^ 2 = (2 * c * c - 1) * y * y := by
    ring
  unfold prune_reject
  split_ifs with h1 h2 h3 h4 h5 h6
  · exact iff_of_true rfl (Or.inl h1)
  · exact iff_of_true rfl (Or.inr (Or.inl h2))
  · exact iff_of_true rfl (Or.inr (Or.inr (Or.inl h3)))
  · exact iff_of_true rfl (Or.inr (Or.inr (Or.inr (Or.inl h4))))
  · refine iff_of_true rfl
      (Or.inr (Or.inr (Or.inr (Or.inr (Or.inl ⟨h5.1, ?_⟩)))))
    rw [e5]
    exact h5.2
  · refine iff_of_true rfl
      (Or.inr (Or.inr (Or.inr (Or.inr (Or.inr ⟨h6.1, ?_⟩)))))
    rw [pow_two, e6]
    exact h6.2
  · simp only [Bool.false_eq_true, false_iff]
    rintro (h | h | h | h | ⟨h5a, h5b⟩ | ⟨h6a, h6b⟩)
    · exact h1 h
    · exact h2 h
    · exact h3 h
    · exact h4 h
    · rw [e5] at h5b
      exact h5 ⟨h5a, h5b⟩
    · rw [pow_two, e6] at h6b
      exact h6 ⟨h6a, h6b⟩

/-- C6 witness: protein query of length 3 against nucleic-acid candidate of
length 7 with TMcut 0.5 in mode s = 2. -/
theorem pruner_characterization_witness :
    ((3 : ℕ) ≤ 7 ∧ (1 : ℤ) ≤ 2 ∧ (2 : ℤ) ≤ 6) ∧
    (prune_reject 3 7 1 (-1) 0.5 2 = true ↔
      ((1 : ℤ) * (-1) < 0 ∨
       ((2 : ℤ) = 2 ∧ ((3 : ℕ) : ℚ) < 0.5 * ((7 : ℕ) : ℚ)) ∨
       ((2 : ℤ) = 3 ∧ ((3 : ℕ) : ℚ) < (2 * 0.5 - 1) * ((7 : ℕ) : ℚ)) ∨
       ((2 : ℤ) = 4 ∧ ((3 : ℕ) : ℚ) * (2 / 0.5 - 1) < ((7 : ℕ) : ℚ)) ∨
       ((2 : ℤ) = 5 ∧ ((3 : ℕ) : ℚ) < 0.5 ^ 2 * ((7 : ℕ) : ℚ)) ∨
       ((2 : ℤ) = 6 ∧
         ((3 : ℕ) : ℚ) ^ 2 < (2 * 0.5 ^ 2 - 1) * ((7 : ℕ) : ℚ) ^ 2))) :=
  ⟨⟨by decide, by decide, by decide⟩,
    pruner_characterization 3 7 1 (-1) 0.5 2 (by decide)
      ⟨by decide, by decide⟩⟩

/-- C8: for every scoring mode s in 1..6 and fixed TM2 in (0,1], the score
combiner is non-decreasing in TM1 over (0,1]. -/
theorem combiner_monotone_in_TM1 (s : ℤ) (t2 t3 a b : ℝ)
    (hs : 1 ≤ s ∧ s ≤ 6) (ht2 : 0 < t2 ∧ t2 ≤ 1)
    (ha : 0 < a ∧ a ≤ 1) (hb : 0 < b ∧ b ≤ 1) (hab : a ≤ b) :
    combineTM s a t2 t3 ≤ combineTM s b t2 t3 := by
  obtain ⟨hs1, hs6⟩ := hs
  obtain ⟨ht2p, ht2o⟩ := ht2
  obtain ⟨hap, hao⟩ := ha
  obtain ⟨hbp, hbo⟩ := hb
  interval_cases s
  · show t2 ≤ t2
    exact le_refl t2
  · show a ≤ b
    exact hab
  · show (a + t2) / 2 ≤ (b + t2) / 2
    linarith
  · show 2 / (1 / a + 1 / t2) ≤ 2 / (1 / b + 1 / t2)
    have h1 : (0 : ℝ) < 1 / b + 1 / t2 := by positivity
    have h2 : 1 / b + 1 / t2 ≤ 1 / a + 1 / t2 := by
      have := one_div_le_one_div_of_le hap hab
      linarith
    exact div_le_div_of_nonneg_left (by norm_num) h1 h2
  · show Real.sqrt (a * t2) ≤ Real.sqrt (b * t2)
    exact Real.sqrt_le_sqrt (by nlinarith)
  · show Real.sqrt ((a * a + t2 * t2) / 2) ≤
      Real.sqrt ((b * b + t2 * t2) / 2)
    exact Real.sqrt_le_sqrt (by nlinarith)

/-- C8 witness: harmonic mode s = 4 with TM2 = 1/2, TM1 growing from 1/4 to
1/2. -/
theorem combiner_monotone_in_TM1_witness :
    ((1 : ℤ) ≤ 4 ∧ (4 : ℤ) ≤ 6) ∧
    ((0 : ℝ) < 1 / 2 ∧ (1 / 2 : ℝ) ≤ 1) ∧
    ((0 : ℝ) < 1 / 4 ∧ (1 / 4 : ℝ) ≤ 1) ∧
    ((1 / 4 : ℝ) ≤ 1 / 2) ∧
    combineTM 4 (1 / 4) (1 / 2) 0 ≤ combineTM 4 (1 / 2) (1 / 2) 0 :=
  ⟨⟨by norm_num, by norm_num⟩, ⟨by norm_num, by norm_num⟩,
    ⟨by norm_num, by norm_num⟩, by norm_num,
    combiner_monotone_in_TM1 4 (1 / 2) 0 (1 / 4) (1 / 2)
      ⟨by norm_num, by norm_num⟩ ⟨by norm_num, by norm_num⟩
      ⟨by norm_num, by norm_num⟩ ⟨by norm_num, by norm_num⟩ (by norm_num)⟩

/-- C2: per-candidate two-tier protocol of the worker.  The fast flag of the
first TMalign call is use_fast = fast_opt OR sqrt(x*y) >= 1000; with
TM the combined score of that call, TM >= 0.9c+0.1 or (TM >= c and use_fast)
yields HIT with the candidate's cluster index after one invocation;
otherwise TM < lb_TMfast yields MISS with no second invocation; otherwise a
second call with fast=false is made and its combined score decides HIT
exactly when it reaches c. -/
theorem worker_two_tier_protocol (c lb : ℝ) (s : ℤ) (fast_flag : Bool)
    (x y : ℕ) (oracle : Bool → ℝ × ℝ × ℝ) (reprMap : ℕ → ℕ) (j : ℕ) :
    (use_fast fast_flag x y = true ↔
       fast_flag = true ∨ (1000 : ℝ) ≤ Real.sqrt ((x : ℝ) * (y : ℝ))) ∧
    (0.9 * c + 0.1 ≤ firstTM s fast_flag x y oracle ∨
       (c ≤ firstTM s fast_flag x y oracle ∧ use_fast fast_flag x y = true) →
     evaluate_candidate c (0.9 * c + 0.1) lb s fast_flag x y oracle reprMap j
       = (some (reprMap j), [use_fast fast_flag x y])) ∧
    (¬ (0.9 * c + 0.1 ≤ firstTM s fast_flag x y oracle ∨
         (c ≤ firstTM s fast_flag x y oracle ∧
           use_fast fast_flag x y = true)) →
     firstTM s fast_flag x y oracle < lb →
     evaluate_candidate c (0.9 * c + 0.1) lb s fast_flag x y oracle reprMap j
       = (none, [use_fast fast_flag x y])) ∧
    (¬ (0.9 * c + 0.1 ≤ firstTM s fast_flag x y oracle ∨
         (c ≤ firstTM s fast_flag x y oracle ∧
           use_fast fast_flag x y = true)) →
     lb ≤ firstTM s fast_flag x y oracle →
     evaluate_candidate c (0.9 * c + 0.1) lb s fast_flag x y oracle reprMap j
       = ((if c ≤ refinedTM s oracle then some (reprMap j) else none),
          [use_fast fast_flag x y, false])) := by
  refine ⟨?_, ?_, ?_, ?_⟩
  · unfold use_fast
    rw [Bool.or_eq_true, decide_eq_true_eq]
    constructor
    · rintro (h | h)
      · exact Or.inl h
      · right
        apply (Real.le_sqrt (by norm_num) (by positivity)).mpr
        have h3 : ((1000 * 1000 : ℕ) : ℝ) ≤ ((x * y : ℕ) : ℝ) := by
          exact_mod_cast h
        push_cast at h3
        nlinarith [h3]
    · rintro (h | h)
      · exact Or.inl h
      · right
        have h2 : (1000 : ℝ) ^ 2 ≤ (x : ℝ) * y :=
          (Real.le_sqrt (by norm_num) (by positivity)).mp h
        have h3 : ((1000 * 1000 : ℕ) : ℝ) ≤ ((x * y : ℕ) : ℝ) := by
          push_cast
          nlinarith [h2]
        exact_mod_cast h3
  · intro h
    unfold firstTM at h
    simp only [evaluate_candidate]
    rw [if_pos h]
  · intro hn h2
    unfold firstTM at hn h2
    simp only [evaluate_candidate]
    rw [if_neg hn, if_pos h2]
  · intro hn h2
    unfold firstTM at hn h2
    simp only [evaluate_candidate]
    rw [if_neg hn, if_neg (not_lt.mpr h2)]
    unfold refinedTM
    split_ifs with hc
    · rfl
    · rfl

/-- C2 witness: TMcut 0.5, lb 0.45, mode s = 2, fast option on, a 10x10
pair whose fast alignment already reaches combined TM 0.6 >= 0.55: HIT with
the candidate's cluster index 4 after a single invocation. -/
theorem worker_two_tier_protocol_witness :
    (0.9 * (0.5 : ℝ) + 0.1 ≤ firstTM 2 true 10 10 (fun _ => (0.6, 0.7, 0.55))
       ∨ ((0.5 : ℝ) ≤ firstTM 2 true 10 10 (fun _ => (0.6, 0.7, 0.55)) ∧
           use_fast true 10 10 = true)) ∧
    evaluate_candidate 0.5 (0.9 * 0.5 + 0.1) 0.45 2 true 10 10
        (fun _ => (0.6, 0.7, 0.55)) (fun _ => 4) 0
      = (some 4, [use_fast true 10 10]) := by
  have h : 0.9 * (0.5 : ℝ) + 0.1 ≤
      firstTM 2 true 10 10 (fun _ => (0.6, 0.7, 0.55)) ∨
      ((0.5 : ℝ) ≤ firstTM 2 true 10 10 (fun _ => (0.6, 0.7, 0.55)) ∧
        use_fast true 10 10 = true) := by
    left
    norm_num [firstTM, combineTM]
  exact ⟨h, (worker_two_tier_protocol 0.5 0.45 2 true 10 10
    (fun _ => (0.6, 0.7, 0.55)) (fun _ => 4) 0).2.1 h⟩

theorem foldl_select_append (p : ℕ → Prop) [DecidablePred p]
    (g : ℕ → List Char) (l : List ℕ) :
    ∀ acc : List Char,
      l.foldl (fun acc i => if p i then acc ++ g i else acc) acc
        = acc ++ ((l.filter (fun i => decide (p i))).map g).flatten := by
  induction l with
  | nil =>
      intro acc
      simp
  | cons a l ih =>
      intro acc
      by_cases hp : p a
      · rw [List.foldl_cons, if_pos hp, ih, List.filter_cons,
          if_pos (by simpa using hp)]
        simp [List.append_assoc]
      · rw [List.foldl_cons, if_neg hp, ih, List.filter_cons,
          if_neg (by simpa using hp)]

theorem emit_members_eq (label : ℕ → List Char) (mem : ℕ → ℕ) (N j r : ℕ) :
    emit_members label mem N j r
      = (((List.range N).filter (fun i => decide (mem i = j ∧ i ≠ r))).map
          (fun i => '\t' :: label i)).flatten := by
  unfold emit_members
  rw [foldl_select_append (fun i => i ≠ r ∧ mem i = j)
    (fun i => '\t' :: label i) (List.range N) []]
  rw [List.nil_append]
  rw [List.filter_congr
    (fun i _ => decide_eq_decide.mpr (and_comm (a := i ≠ r)))]

theorem print_clusters_aux_eq (label : ℕ → List Char) (mem : ℕ → ℕ) (N : ℕ)
    (reprs : List ℕ) :
    ∀ j : ℕ,
      print_clusters_aux label mem N j reprs
        = ((reprs.enumFrom j).map
            (fun p => cluster_line_spec label mem N p.1 p.2)).flatten := by
  induction reprs with
  | nil =>
      intro j
      simp [print_clusters_aux]
  | cons r rest ih =>
      intro j
      simp [print_clusters_aux, List.enumFrom_cons, cluster_line_spec,
        emit_members_eq, ih (j + 1), List.append_assoc]

/-- C10: the printed output equals, cluster by cluster in representative
order, a line holding the representative's label first, then the labels of
the non-representative members of that cluster in ascending chain id, each
preceded by a tab character, the line ending with a newline character. -/
theorem print_clusters_matches_spec (label : ℕ → List Char) (mem : ℕ → ℕ)
    (N : ℕ) (reprs : List ℕ) :
    print_clusters label mem N reprs
      = print_clusters_spec label mem N reprs := by
  unfold print_clusters print_clusters_spec
  rw [print_clusters_aux_eq]
  rfl

end QTMclust
